import Mathlib

/-!
Shallow embedding of the token-lifecycle / session-management subsystem of the
LMS repository (`core/lms_core/auth/auth_service.py`, `core/lms_core/auth/router.py`,
`core/lms_core/users/crud.py`, `infrastructure/databases/database_config.py`).

The Redis token store (the client is created with `decode_responses=True`, so all
values are decoded strings) is modelled as an association list from string keys to
string values with unique keys.  Per-key expiry (`setex`'s TTL argument) is carried
in the signatures but not in the store: every claim below quantifies over states
within the validity window of the records involved.
-/

namespace LMS

deriving instance DecidableEq for Except

/-- The Redis key-value store: list of (key, value) pairs. -/
abbrev KV := List (String × String)

/-- `redis.get`: Redis keys are unique; the model reads the first matching pair. -/
def kvGet (kv : KV) (k : String) : Option String :=
  (kv.find? (fun p => p.1 == k)).map (fun p => p.2)

/-- Removal of every pair holding the exact key `k`. -/
def kvDelKey (kv : KV) (k : String) : KV :=
  kv.filter (fun p => !(p.1 == k))

/-- `redis.delete`: returns the new store and the number of keys removed. -/
def kvDel (kv : KV) (k : String) : KV × Nat :=
  (kvDelKey kv k, (kv.filter (fun p => p.1 == k)).length)

/-- `redis.setex key ttl value`: stores the pair, overwriting any previous value
for the key.  The TTL is accepted but not tracked (see the module comment). -/
def kvSetex (kv : KV) (k : String) (_ttl : Nat) (v : String) : KV :=
  (k, v) :: kvDelKey kv k

/-- Redis glob pattern `pre ++ "*"`: a key matches iff it starts with `pre`. -/
def matchesKeyPat (pre : String) (k : String) : Bool :=
  pre.data.isPrefixOf k.data

/-- `redis.scan` with pattern `pre ++ "*"`, run to cursor exhaustion: the keys of
all pairs whose key starts with `pre`. -/
def kvScanMatching (kv : KV) (pre : String) : List String :=
  (kv.filter (fun p => matchesKeyPat pre p.1)).map (fun p => p.1)

/-- Well-formedness of the store: keys are unique (as in Redis). -/
abbrev KVwf (kv : KV) : Prop :=
  (kv.map (fun p => p.1)).Nodup

/-- Python `str` on a user id (`str(user_id)`): canonical decimal representation. -/
def pyStr (n : Nat) : String := toString n

/-- One decimal digit of a decimal string. -/
def charDigit? (c : Char) : Option Nat :=
  if '0' ≤ c ∧ c ≤ '9' then some (c.toNat - '0'.toNat) else none

/-- Accumulating decimal parse. -/
def parseDecimal : List Char → Nat → Option Nat
  | [], acc => some acc
  | c :: rest, acc =>
    match charDigit? c with
    | some d => parseDecimal rest (acc * 10 + d)
    | none => none

/-- Python `int(s)` on the strings this store holds (canonical non-negative
decimals written by `str(user_id)`).  `int` raising `ValueError` on a
non-decimal string is modelled as `none`; no caller stores such values. -/
def pyInt (s : String) : Option Nat :=
  if s.data.isEmpty then none else parseDecimal s.data 0

/-- `REFRESH_TOKEN_KEY_PREFIX` from `auth_service.py`. -/
def REFRESH_TOKEN_PRE : String := "refresh_token:"

/-- `RESET_TOKEN_KEY_PREFIX` from `auth_service.py`. -/
def RESET_TOKEN_PRE : String := "reset_token:"

/-- `VERIFICATION_TOKEN_KEY_PREFIX` from `auth_service.py`. -/
def VERIFICATION_TOKEN_PRE : String := "verification_token:"

/-- A stored password hash.  `bcrypt of` stands for a well-formed bcrypt hash of
the plaintext `of`; `malformed s` is any string that the passlib context cannot
identify as a hash of a configured scheme. -/
inductive HashStr where
  | bcrypt (of : String)
  | malformed (raw : String)
deriving DecidableEq, Repr

/-- Exceptions surfaced by the subsystem: `http` is a FastAPI `HTTPException`
with status code and detail; `pyError` is an uncaught Python exception
(propagated to the framework as a 500). -/
inductive Exc where
  | http (status : Nat) (detail : String)
  | pyError (msg : String)
deriving DecidableEq, Repr

/-- `verify_password` from `auth_service.py`, i.e. `pwd_context.verify` of a
passlib `CryptContext(schemes=["bcrypt"])`.  Per passlib's documented contract,
`verify` returns whether the plaintext matches the hash when the hash string is
a recognizable bcrypt hash, and raises `UnknownHashError` (a `ValueError`) when
the hash string cannot be identified. -/
def verify_password (plain_password : String) (hashed_password : HashStr) : Except Exc Bool :=
  match hashed_password with
  | .bcrypt of => .ok (plain_password == of)
  | .malformed _ => .error (.pyError "UnknownHashError")

/-- `get_password_hash`: `pwd_context.hash` always yields a well-formed hash. -/
def get_password_hash (password : String) : HashStr :=
  .bcrypt password

/-- A row of the `roles` table (only the `name` column is consulted here). -/
structure Role where
  name : String
deriving DecidableEq, Repr

/-- A row of the `users` table, restricted to the columns this subsystem reads. -/
structure User where
  id : Nat
  username : String
  email : String
  hashed_password : HashStr
  is_active : Bool
  is_verified : Bool
  roles : List Role
deriving DecidableEq, Repr

/-- The user table. -/
abbrev DB := List User

/-- `get_user` from `users/crud.py`: first row with the given id. -/
def get_user (db : DB) (user_id : Nat) : Option User :=
  db.find? (fun u => u.id == user_id)

/-- `get_user_by_username` from `users/crud.py`. -/
def get_user_by_username (db : DB) (username : String) : Option User :=
  db.find? (fun u => u.username == username)

/-- `get_user_by_email` from `users/crud.py`. -/
def get_user_by_email (db : DB) (email : String) : Option User :=
  db.find? (fun u => u.email == email)

/-- The user lookup inside `authenticate_user`: by username, then by email. -/
def lookup_login_user (db : DB) (ident : String) : Option User :=
  match get_user_by_username db ident with
  | some u => some u
  | none => get_user_by_email db ident

/-- `authenticate_user` from `auth_service.py`.  Returns `ok none` on every
authentication failure (user absent, password mismatch, inactive account);
an exception from `verify_password` propagates. -/
def authenticate_user (db : DB) (username password : String) : Except Exc (Option User) :=
  match lookup_login_user db username with
  | none => .ok none
  | some user =>
    match verify_password password user.hashed_password with
    | .error e => .error e
    | .ok ok =>
      if !ok then .ok none
      else if !user.is_active then .ok none
      else .ok (some user)

/-- JWT claims carried by this system's access tokens (`sub`, `username`,
`roles`, `exp`).  `exp` is a unix timestamp (seconds). -/
structure JwtClaims where
  sub : Option String
  username : Option String
  roles : List String
  exp : Option Int
deriving DecidableEq, Repr

/-- An access-token string: either a structurally valid JWT carrying `claims`
and signed with `key` (HMAC keyed by the signing secret), or a string that is
not a decodable JWT at all. -/
inductive AccessToken where
  | signed (claims : JwtClaims) (key : String)
  | malformed (raw : String)
deriving DecidableEq, Repr

/-- `jwt.decode token key` (PyJWT): fails on a malformed token and on a
signature produced with a different key; with the `exp` claim present it also
rejects an expired token (`ExpiredSignatureError`).  All decode failures are
`PyJWTError`s, modelled as `none`. -/
def jwtDecode (tok : AccessToken) (key : String) (now : Int) : Option JwtClaims :=
  match tok with
  | .malformed _ => none
  | .signed claims k =>
    if k == key then
      match claims.exp with
      | some e => if e < now then none else some claims
      | none => some claims
    else none

/-- `ACCESS_TOKEN_EXPIRE_MINUTES` (env default `"1440"`). -/
def ACCESS_TOKEN_EXPIRE_MINUTES : Int := 1440

/-- `create_access_token` from `auth_service.py`: copies the payload, sets
`exp := now + expires_delta` (default `ACCESS_TOKEN_EXPIRE_MINUTES` minutes)
and signs with the secret.  `expires_delta` is in seconds. -/
def create_access_token (data : JwtClaims) (expires_delta : Option Int) (now : Int)
    (secret : String) : AccessToken × Int :=
  let expire : Int :=
    match expires_delta with
    | some d => now + d
    | none => now + ACCESS_TOKEN_EXPIRE_MINUTES * 60
  (AccessToken.signed { data with exp := some expire } secret, expire)

/-- The token issuance performed by the login route (`router.py`,
`login_for_access_token`): payload `{"sub": str(user.id), "username":
user.username, "roles": [role.name for role in user.roles]}` with a
1440-minute expiry. -/
def issue_access_token (u : User) (now : Int) (secret : String) : AccessToken × Int :=
  create_access_token
    { sub := some (pyStr u.id), username := some u.username,
      roles := u.roles.map (fun r => r.name), exp := none }
    (some (1440 * 60)) now secret

/-- The `HTTPException` raised by `get_current_user` on every validation
failure. -/
def credentials_exception : Exc := .http 401 "Could not validate credentials"

/-- `get_current_user` from `auth_service.py`: decode the JWT, require a `sub`
claim, require an unexpired `exp` claim, then load the user whose id column
equals the (string-typed) `sub`; every failure raises
`credentials_exception`. -/
def get_current_user (db : DB) (secret : String) (now : Int) (tok : AccessToken) :
    Except Exc User :=
  match jwtDecode tok secret now with
  | none => .error credentials_exception
  | some payload =>
    match payload.sub with
    | none => .error credentials_exception
    | some user_id =>
      match payload.exp with
      | none => .error credentials_exception
      | some expiration =>
        if expiration < now then .error credentials_exception
        else
          match db.find? (fun u => pyStr u.id == user_id) with
          | none => .error credentials_exception
          | some user => .ok user

/-- `REFRESH_TOKEN_EXPIRE_DAYS` (env default `"30"`), in seconds. -/
def REFRESH_TOKEN_TTL_SECONDS : Nat := 30 * 24 * 60 * 60

/-- `create_refresh_token` from `auth_service.py`.  The random
`secrets.token_hex(32)` output is passed in as `tok`; the token is stored under
`REFRESH_TOKEN_KEY_PREFIX ++ tok` with value `str(user_id)`. -/
def create_refresh_token (kv : KV) (user_id : Nat) (tok : String) : String × KV :=
  (tok, kvSetex kv (REFRESH_TOKEN_PRE ++ tok) REFRESH_TOKEN_TTL_SECONDS (pyStr user_id))

/-- `validate_refresh_token` from `auth_service.py`: look the key up; a missing
key (and Python's falsy empty string) yields no subject, otherwise
`int(user_id)`. -/
def validate_refresh_token (kv : KV) (tok : String) : Option Nat :=
  match kvGet kv (REFRESH_TOKEN_PRE ++ tok) with
  | some user_id => if user_id == "" then none else pyInt user_id
  | none => none

/-- `revoke_refresh_token` from `auth_service.py`: delete the key; true iff a
record was deleted. -/
def revoke_refresh_token (kv : KV) (tok : String) : KV × Bool :=
  let r := kvDel kv (REFRESH_TOKEN_PRE ++ tok)
  (r.1, decide (0 < r.2))

/-- The body of `revoke_all_user_tokens`'s scan loop: for one scanned key,
`if redis.get(key) == str(user_id): redis.delete(key); revoked_count += 1`. -/
def revokeStep (user_id : Nat) (st : KV × Nat) (k : String) : KV × Nat :=
  if kvGet st.1 k == some (pyStr user_id) then (kvDelKey st.1 k, st.2 + 1) else st

/-- `revoke_all_user_tokens` from `auth_service.py`: scan all keys matching
`refresh_token:*`; delete (and count) every one whose value equals
`str(user_id)`. -/
def revoke_all_user_tokens (kv : KV) (user_id : Nat) : KV × Nat :=
  (kvScanMatching kv REFRESH_TOKEN_PRE).foldl (revokeStep user_id) (kv, 0)

/-- `create_password_reset_token` from `auth_service.py`: `none` if no user has
the email; otherwise store the random token (`secrets.token_urlsafe(32)`,
passed in as `tok`) under the reset prefix with a 24-hour TTL. -/
def create_password_reset_token (db : DB) (kv : KV) (email : String) (tok : String) :
    Option String × KV :=
  match get_user_by_email db email with
  | none => (none, kv)
  | some user => (some tok, kvSetex kv (RESET_TOKEN_PRE ++ tok) (24 * 60 * 60) (pyStr user.id))

/-- `validate_password_reset_token` from `auth_service.py`: a pure read — the
token record is NOT deleted here (contrast `validate_email_verification_token`). -/
def validate_password_reset_token (kv : KV) (tok : String) : Option Nat :=
  match kvGet kv (RESET_TOKEN_PRE ++ tok) with
  | some user_id => if user_id == "" then none else pyInt user_id
  | none => none

/-- `validate_email_verification_token` from `auth_service.py`: on a hit the
token record is deleted before the user id is returned. -/
def validate_email_verification_token (kv : KV) (tok : String) : Option Nat × KV :=
  match kvGet kv (VERIFICATION_TOKEN_PRE ++ tok) with
  | some user_id =>
    if user_id == "" then (none, kv)
    else (pyInt user_id, kvDelKey kv (VERIFICATION_TOKEN_PRE ++ tok))
  | none => (none, kv)

/-- A value assigned to a user column by `update_user`'s `setattr` loop. -/
inductive FieldVal where
  | vHash (h : HashStr)
  | vStr (s : String)
  | vBool (b : Bool)
deriving DecidableEq, Repr

/-- The argument `reset_password`/`verify_email` pass to `update_user`.  The
crud function's annotation expects a pydantic `UserUpdate` model (which has a
`.dict` method); the router call sites actually pass a plain Python `dict`. -/
inductive UpdateArg where
  | pydanticModel (fields : List (String × FieldVal))
  | plainDict (fields : List (String × FieldVal))
deriving DecidableEq, Repr

/-- One `setattr(db_user, key, value)` step, restricted to the columns this
subsystem reads. -/
def applyField (u : User) (field : String × FieldVal) : User :=
  match field with
  | ("hashed_password", .vHash h) => { u with hashed_password := h }
  | ("is_verified", .vBool b) => { u with is_verified := b }
  | ("is_active", .vBool b) => { u with is_active := b }
  | ("username", .vStr s) => { u with username := s }
  | ("email", .vStr s) => { u with email := s }
  | _ => u

/-- `update_user` from `users/crud.py`: 404 if the user is missing, then
`user.dict(exclude_unset=True)` and a `setattr` loop.  When the caller passed a
plain `dict` instead of a pydantic model, the `.dict` attribute access raises
`AttributeError` before any column is written. -/
def update_user (db : DB) (user_id : Nat) (arg : UpdateArg) : Except Exc DB :=
  match get_user db user_id with
  | none => .error (.http 404 "User not found")
  | some _ =>
    match arg with
    | .plainDict _ => .error (.pyError "AttributeError: dict object has no attribute dict")
    | .pydanticModel fields =>
      .ok (db.map (fun u => if u.id == user_id then fields.foldl applyField u else u))

/-- `reset_password` from `router.py`: validate the reset token, load the user,
update the password hash via `update_user` (passing a plain dict), then revoke
all the user's refresh tokens.  On success returns the new DB and KV states. -/
def reset_password (db : DB) (kv : KV) (token password : String) : Except Exc (DB × KV) :=
  match validate_password_reset_token kv token with
  | none => .error (.http 400 "Invalid or expired token")
  | some user_id =>
    match get_user db user_id with
    | none => .error (.http 400 "User not found")
    | some _ =>
      match update_user db user_id
          (.plainDict [("hashed_password", .vHash (get_password_hash password))]) with
      | .error e => .error e
      | .ok db' =>
        let r := revoke_all_user_tokens kv user_id
        .ok (db', r.1)

/-- The response of the login route (`router.py`), restricted to the fields the
claims mention. -/
structure LoginResp where
  access_token : AccessToken
  expires_at : Int
  refresh_token : String
  user_id : Nat
  username : String
  roles : List String
deriving DecidableEq, Repr

/-- `login_for_access_token` from `router.py`: authenticate, raise a uniform
401 on failure, otherwise issue an access token and a refresh token.  `fresh`
stands for the `secrets.token_hex(32)` output used as the refresh token. -/
def login_for_access_token (db : DB) (kv : KV) (ident password : String) (now : Int)
    (secret : String) (fresh : String) : Except Exc (LoginResp × KV) :=
  match authenticate_user db ident password with
  | .error e => .error e
  | .ok none => .error (.http 401 "Incorrect username or password")
  | .ok (some user) =>
    let roles := user.roles.map (fun r => r.name)
    let issued := create_access_token
      { sub := some (pyStr user.id), username := some user.username,
        roles := roles, exp := none } (some (1440 * 60)) now secret
    let rt := create_refresh_token kv user.id fresh
    .ok ({ access_token := issued.1, expires_at := issued.2, refresh_token := rt.1,
           user_id := user.id, username := user.username, roles := roles }, rt.2)

/-- `has_role(required_roles)`'s inner check from `auth_service.py`: any-of
membership of the subject's role names in the required list. -/
def role_gate_allows (required_roles : List String) (roles : List Role) : Bool :=
  required_roles.any (fun role => (roles.map (fun r => r.name)).contains role)

/-- The `role_checker` dependency returned by `has_role`: 403 unless the user
holds at least one required role. -/
def has_role_checker (required_roles : List String) (current_user : User) : Except Exc User :=
  if role_gate_allows required_roles current_user.roles then .ok current_user
  else .error (.http 403 "Insufficient permissions")

/-- A generic mutation of the token store, for stating preservation claims:
the primitive writes the subsystem performs. -/
inductive KvOp where
  | setex (k : String) (ttl : Nat) (v : String)
  | del (k : String)
deriving DecidableEq, Repr

/-- Apply one store mutation. -/
def KvOp.apply (kv : KV) : KvOp → KV
  | .setex k ttl v => kvSetex kv k ttl v
  | .del k => kvDelKey kv k

/-- Apply a sequence of store mutations. -/
def applyOps (kv : KV) (ops : List KvOp) : KV :=
  ops.foldl KvOp.apply kv

/-- `op` does not (re-)create the key `k`. -/
def KvOp.notSet (k : String) : KvOp → Bool
  | .setex k' _ _ => k' != k
  | .del _ => true

/-- The three authentication-failure causes of `authenticate_user`: no user
matches the identifier by username or email, the password does not verify
against the stored hash, or the account is inactive. -/
def authFailureCause (db : DB) (ident pw : String) : Prop :=
  lookup_login_user db ident = none
  ∨ (∃ u, lookup_login_user db ident = some u
      ∧ verify_password pw u.hashed_password = .ok false)
  ∨ (∃ u, lookup_login_user db ident = some u
      ∧ verify_password pw u.hashed_password = .ok true ∧ u.is_active = false)

/-! Concrete sample states used to instantiate the theorems below. -/

/-- An active, verified user. -/
def userAlice : User :=
  { id := 1, username := "alice", email := "alice@example.com",
    hashed_password := HashStr.bcrypt "apw", is_active := true, is_verified := true,
    roles := [{ name := "student" }] }

/-- An inactive user. -/
def userBob : User :=
  { id := 2, username := "bob", email := "bob@example.com",
    hashed_password := HashStr.bcrypt "bpw", is_active := false, is_verified := true,
    roles := [{ name := "instructor" }] }

/-- A sample user table. -/
def dbSample : DB := [userAlice, userBob]

/-- A sample token store: one reset token for Alice, refresh tokens for Alice
and Bob. -/
def kvSample : KV :=
  [(RESET_TOKEN_PRE ++ "tkn", "1"),
   (REFRESH_TOKEN_PRE ++ "r1", "1"),
   (REFRESH_TOKEN_PRE ++ "r2", "2")]

/-! ### Library-level helper lemmas -/

theorem data_append (s t : String) : (s ++ t).data = s.data ++ t.data := by
  cases s; cases t; rfl

theorem isPrefixOf_append_self (p s : List Char) : p.isPrefixOf (p ++ s) = true := by
  induction p with
  | nil => simp [List.isPrefixOf]
  | cons a as ih => simp [List.isPrefixOf, ih]

theorem matchesKeyPat_append (pre t : String) : matchesKeyPat pre (pre ++ t) = true := by
  unfold matchesKeyPat
  rw [data_append]
  exact isPrefixOf_append_self _ _

theorem refresh_not_match_reset (t : String) :
    matchesKeyPat REFRESH_TOKEN_PRE (RESET_TOKEN_PRE ++ t) = false := by
  cases t with
  | mk d =>
    simp [matchesKeyPat, REFRESH_TOKEN_PRE, RESET_TOKEN_PRE, List.isPrefixOf]

theorem refresh_not_match_verification (t : String) :
    matchesKeyPat REFRESH_TOKEN_PRE (VERIFICATION_TOKEN_PRE ++ t) = false := by
  cases t with
  | mk d =>
    simp [matchesKeyPat, REFRESH_TOKEN_PRE, VERIFICATION_TOKEN_PRE, List.isPrefixOf]

theorem find?_eq_of_mem_unique {α : Type} (p : α → Bool) (l : List α) (a : α)
    (ha : a ∈ l) (hp : p a = true) (huniq : ∀ b ∈ l, p b = true → b = a) :
    l.find? p = some a := by
  induction l with
  | nil => cases ha
  | cons b l ih =>
    by_cases hb : p b = true
    · have hba : b = a := huniq b (List.mem_cons_self _ _) hb
      simp [List.find?, hb, hba, hp]
    · have hne : b ≠ a := fun h => hb (h ▸ hp)
      have ha' : a ∈ l := by
        rcases List.mem_cons.mp ha with h | h
        · exact absurd h.symm hne
        · exact h
      simp only [List.find?, Bool.not_eq_true] at hb ⊢
      rw [hb]
      exact ih ha' (fun b hbl hpb => huniq b (List.mem_cons_of_mem _ hbl) hpb)

/-! ### Store lemmas -/

theorem kvGet_none_iff (kv : KV) (k : String) :
    kvGet kv k = none ↔ ∀ p ∈ kv, ¬(p.1 = k) := by
  simp [kvGet, List.find?_eq_none]

theorem kvGet_delKey_self (kv : KV) (k : String) : kvGet (kvDelKey kv k) k = none := by
  rw [kvGet_none_iff]
  intro p hp
  have := List.of_mem_filter hp
  simpa using this

theorem kvGet_cons (p : String × String) (kv : KV) (k : String) :
    kvGet (p :: kv) k = if p.1 == k then some p.2 else kvGet kv k := by
  by_cases h : (p.1 == k) = true
  · rw [if_pos h]
    simp [kvGet, List.find?, h]
  · rw [if_neg h]
    simp only [Bool.not_eq_true] at h
    simp [kvGet, List.find?, h]

theorem kvDelKey_cons (p : String × String) (kv : KV) (k : String) :
    kvDelKey (p :: kv) k = if p.1 == k then kvDelKey kv k else p :: kvDelKey kv k := by
  by_cases h : (p.1 == k) = true
  · simp [kvDelKey, List.filter_cons, h]
  · simp [kvDelKey, List.filter_cons, h]

theorem kvGet_delKey_ne (kv : KV) (k k' : String) (h : k' ≠ k) :
    kvGet (kvDelKey kv k) k' = kvGet kv k' := by
  induction kv with
  | nil => rfl
  | cons p kv ih =>
    rw [kvDelKey_cons]
    by_cases hp : (p.1 == k) = true
    · rw [if_pos hp, ih, kvGet_cons]
      have hp' : (p.1 == k') = false := by
        have : p.1 = k := by simpa using hp
        simp only [beq_eq_false_iff_ne, ne_eq, this]
        exact fun hh => h hh.symm
      rw [hp', if_neg (by simp)]
    · rw [if_neg hp, kvGet_cons, kvGet_cons, ih]

theorem kvGet_delKey_none (kv : KV) (k k' : String) (h : kvGet kv k = none) :
    kvGet (kvDelKey kv k') k = none := by
  rw [kvGet_none_iff] at h ⊢
  intro p hp
  exact h p (List.mem_of_mem_filter hp)

theorem kvGet_setex_self (kv : KV) (k : String) (ttl : Nat) (v : String) :
    kvGet (kvSetex kv k ttl v) k = some v := by
  simp [kvSetex, kvGet, List.find?]

theorem kvGet_setex_ne (kv : KV) (k k' : String) (ttl : Nat) (v : String) (h : k' ≠ k) :
    kvGet (kvSetex kv k ttl v) k' = kvGet kv k' := by
  unfold kvSetex
  rw [kvGet_cons]
  have h' : ((k, v).1 == k') = false := by
    simp only [beq_eq_false_iff_ne, ne_eq]
    exact fun hh => h hh.symm
  rw [h', if_neg (by simp), kvGet_delKey_ne kv k k' h]

theorem mem_of_kvGet (kv : KV) (k v : String) (h : kvGet kv k = some v) :
    (k, v) ∈ kv := by
  unfold kvGet at h
  rcases Option.map_eq_some'.mp h with ⟨p, hfind, hv⟩
  have hmem := List.mem_of_find?_eq_some hfind
  have hpk := List.find?_some hfind
  have : p.1 = k := by simpa using hpk
  have : p = (k, v) := by
    cases p
    simp_all
  exact this ▸ hmem

theorem kvGet_eq_of_mem_wf (kv : KV) (k v : String) (hwf : KVwf kv) (hmem : (k, v) ∈ kv) :
    kvGet kv k = some v := by
  induction kv with
  | nil => cases hmem
  | cons p kv ih =>
    unfold KVwf at hwf
    simp only [List.map_cons, List.nodup_cons] at hwf
    rcases List.mem_cons.mp hmem with h | h
    · simp [kvGet, List.find?, ← h]
    · have hk : k ∈ kv.map (fun p => p.1) := List.mem_map.mpr ⟨(k, v), h, rfl⟩
      have hpk : ¬(p.1 = k) := fun hh => hwf.1 (hh ▸ hk)
      simp only [kvGet, List.find?]
      simp only [show (p.1 == k) = false by simpa using hpk]
      exact ih hwf.2 h

theorem value_unique_wf (kv : KV) (k v v' : String) (hwf : KVwf kv)
    (h : (k, v) ∈ kv) (h' : (k, v') ∈ kv) : v = v' := by
  have e := kvGet_eq_of_mem_wf kv k v hwf h
  have e' := kvGet_eq_of_mem_wf kv k v' hwf h'
  rw [e] at e'
  exact Option.some_inj.mp e'

theorem KVwf_delKey (kv : KV) (k : String) (hwf : KVwf kv) : KVwf (kvDelKey kv k) := by
  unfold KVwf kvDelKey at *
  exact hwf.sublist ((List.filter_sublist kv).map _)

theorem mem_kvScanMatching (kv : KV) (pre k : String) (h : k ∈ kvScanMatching kv pre) :
    matchesKeyPat pre k = true := by
  unfold kvScanMatching at h
  rcases List.mem_map.mp h with ⟨p, hp, hpk⟩
  have := List.of_mem_filter hp
  exact hpk ▸ this

theorem kvScanMatching_nodup (kv : KV) (pre : String) (hwf : KVwf kv) :
    (kvScanMatching kv pre).Nodup := by
  unfold kvScanMatching
  unfold KVwf at hwf
  exact hwf.sublist ((List.filter_sublist kv).map _)

/-! ### The scan-and-delete loop of `revoke_all_user_tokens` -/

theorem revokeStep_fst_get_ne (uid : Nat) (st : KV × Nat) (k' k : String) (h : k ≠ k') :
    kvGet (revokeStep uid st k').1 k = kvGet st.1 k := by
  unfold revokeStep
  split
  · exact kvGet_delKey_ne st.1 k' k h
  · rfl

theorem fold_revokeStep_get (uid : Nat) (KS : List String) (st : KV × Nat) (k : String)
    (h : k ∉ KS) :
    kvGet (KS.foldl (revokeStep uid) st).1 k = kvGet st.1 k := by
  induction KS generalizing st with
  | nil => rfl
  | cons k' KS ih =>
    rw [List.foldl_cons]
    have hk : k ≠ k' := fun hh => h (hh ▸ List.mem_cons_self k' KS)
    rw [ih _ (fun hm => h (List.mem_cons_of_mem _ hm)), revokeStep_fst_get_ne uid st k' k hk]

theorem fold_revokeStep_spec (uid : Nat) (KS : List String) :
    ∀ (cur : KV) (n : Nat), KVwf cur → KS.Nodup →
    (KS.foldl (revokeStep uid) (cur, n)).1
        = cur.filter (fun p => !(KS.contains p.1 && p.2 == pyStr uid))
    ∧ (KS.foldl (revokeStep uid) (cur, n)).2
        = n + (KS.filter (fun k => kvGet cur k == some (pyStr uid))).length := by
  induction KS with
  | nil =>
    intro cur n _ _
    constructor
    · simp
    · simp
  | cons k KS ih =>
    intro cur n hwf hnd
    rw [List.foldl_cons]
    have hnd' : KS.Nodup := (List.nodup_cons.mp hnd).2
    have hknotin : k ∉ KS := (List.nodup_cons.mp hnd).1
    by_cases hg : (kvGet cur k == some (pyStr uid)) = true
    · have hget : kvGet cur k = some (pyStr uid) := by simpa using hg
      have hstep : revokeStep uid (cur, n) k = (kvDelKey cur k, n + 1) := by
        unfold revokeStep
        rw [if_pos hg]
      rw [hstep]
      have hwf' := KVwf_delKey cur k hwf
      obtain ⟨ih1, ih2⟩ := ih (kvDelKey cur k) (n + 1) hwf' hnd'
      constructor
      · rw [ih1]
        unfold kvDelKey
        rw [List.filter_filter]
        apply List.filter_congr
        intro p hp
        by_cases hpk : p.1 = k
        · have hpmem : (k, p.2) ∈ cur := by
            cases p
            simp_all
          have : kvGet cur k = some p.2 := kvGet_eq_of_mem_wf cur k p.2 hwf hpmem
          have hval : p.2 = pyStr uid := by
            rw [hget] at this
            exact (Option.some_inj.mp this).symm
          simp [hpk, hval, List.contains_cons]
        · simp [List.contains_cons, hpk]
      · rw [ih2]
        have hcount : KS.filter (fun k' => kvGet (kvDelKey cur k) k' == some (pyStr uid))
            = KS.filter (fun k' => kvGet cur k' == some (pyStr uid)) := by
          apply List.filter_congr
          intro k' hk'
          have : k' ≠ k := fun hh => hknotin (hh ▸ hk')
          rw [kvGet_delKey_ne cur k k' this]
        rw [hcount, List.filter_cons, if_pos hg]
        simp only [List.length_cons]
        omega
    · have hstep : revokeStep uid (cur, n) k = (cur, n) := by
        unfold revokeStep
        rw [if_neg hg]
      rw [hstep]
      obtain ⟨ih1, ih2⟩ := ih cur n hwf hnd'
      constructor
      · rw [ih1]
        apply List.filter_congr
        intro p hp
        by_cases hpk : p.1 = k
        · have hpmem : (k, p.2) ∈ cur := by
            cases p
            simp_all
          have hkp : kvGet cur k = some p.2 := kvGet_eq_of_mem_wf cur k p.2 hwf hpmem
          have hval : (p.2 == pyStr uid) = false := by
            by_cases hv : p.2 = pyStr uid
            · exfalso
              apply hg
              rw [hkp, hv]
              simp
            · simpa using hv
          simp [List.contains_cons, hpk, hval]
        · simp [List.contains_cons, hpk]
      · rw [ih2, List.filter_cons, if_neg hg]

theorem revoke_all_user_tokens_eq (kv : KV) (uid : Nat) (hwf : KVwf kv) :
    revoke_all_user_tokens kv uid
      = (kv.filter (fun p => !(matchesKeyPat REFRESH_TOKEN_PRE p.1 && p.2 == pyStr uid)),
         (kv.filter (fun p => matchesKeyPat REFRESH_TOKEN_PRE p.1
            && p.2 == pyStr uid)).length) := by
  unfold revoke_all_user_tokens
  obtain ⟨h1, h2⟩ := fold_revokeStep_spec uid (kvScanMatching kv REFRESH_TOKEN_PRE) kv 0 hwf
    (kvScanMatching_nodup kv _ hwf)
  have hcontains : ∀ p ∈ kv,
      ((kvScanMatching kv REFRESH_TOKEN_PRE).contains p.1)
        = matchesKeyPat REFRESH_TOKEN_PRE p.1 := by
    intro p hp
    by_cases hm : matchesKeyPat REFRESH_TOKEN_PRE p.1 = true
    · rw [hm]
      have hmem : p.1 ∈ kvScanMatching kv REFRESH_TOKEN_PRE := by
        unfold kvScanMatching
        exact List.mem_map.mpr ⟨p, List.mem_filter.mpr ⟨hp, hm⟩, rfl⟩
      simpa [List.contains] using hmem
    · have hm' : matchesKeyPat REFRESH_TOKEN_PRE p.1 = false := by
        simpa using hm
      rw [hm']
      by_cases hc : ((kvScanMatching kv REFRESH_TOKEN_PRE).contains p.1) = true
      · exfalso
        have hmem : p.1 ∈ kvScanMatching kv REFRESH_TOKEN_PRE := by
          simpa [List.contains] using hc
        exact hm (mem_kvScanMatching kv _ _ hmem)
      · simpa using hc
  refine Prod.ext ?_ ?_
  · rw [h1]
    apply List.filter_congr
    intro p hp
    rw [hcontains p hp]
  · rw [h2]
    simp only [Nat.zero_add]
    unfold kvScanMatching
    rw [List.filter_map]
    rw [List.length_map]
    rw [List.filter_filter]
    apply congrArg List.length
    apply List.filter_congr
    intro p hp
    have hget : kvGet kv p.1 = some p.2 := by
      apply kvGet_eq_of_mem_wf kv p.1 p.2 hwf
      cases p
      exact hp
    simp only [Function.comp_apply]
    rw [hget]
    exact Bool.and_comm _ _

theorem kvGet_none_applyOps (kv : KV) (ops : List KvOp) (k : String)
    (h : kvGet kv k = none) (hops : ∀ op ∈ ops, KvOp.notSet k op = true) :
    kvGet (applyOps kv ops) k = none := by
  induction ops generalizing kv with
  | nil => exact h
  | cons op ops ih =>
    show kvGet (List.foldl KvOp.apply (KvOp.apply kv op) ops) k = none
    apply ih
    · cases op with
      | setex k' ttl v =>
        have hne : k' ≠ k := by
          simpa [KvOp.notSet] using hops (.setex k' ttl v) (List.mem_cons_self _ _)
        show kvGet (kvSetex kv k' ttl v) k = none
        rw [kvGet_setex_ne kv k' k ttl v (fun hh => hne hh.symm)]
        exact h
      | del k' =>
        exact kvGet_delKey_none kv k k' h
    · intro op' hop'
      exact hops op' (List.mem_cons_of_mem _ hop')

/-! ### Claim theorems -/

/-- C5: no resurrection of refresh tokens.  After `revoke_refresh_token`
deletes a refresh token's record, `validate_refresh_token` returns no subject
for it, and keeps returning no subject across any further sequence of store
operations that does not re-create that exact key; and in a well-formed store
a refresh-token key resolves to at most one stored subject value. -/
theorem revoke_then_validate_none (kv : KV) (tok : String) (ops : List KvOp)
    (hwf : KVwf kv)
    (hops : ∀ op ∈ ops, KvOp.notSet (REFRESH_TOKEN_PRE ++ tok) op = true) :
    validate_refresh_token (revoke_refresh_token kv tok).1 tok = none
    ∧ validate_refresh_token (applyOps (revoke_refresh_token kv tok).1 ops) tok = none
    ∧ ∀ v v', (REFRESH_TOKEN_PRE ++ tok, v) ∈ kv → (REFRESH_TOKEN_PRE ++ tok, v') ∈ kv
        → v = v' := by
  have hfst : (revoke_refresh_token kv tok).1 = kvDelKey kv (REFRESH_TOKEN_PRE ++ tok) := rfl
  have hdel : kvGet (revoke_refresh_token kv tok).1 (REFRESH_TOKEN_PRE ++ tok) = none := by
    rw [hfst]
    exact kvGet_delKey_self kv _
  refine ⟨?_, ?_, ?_⟩
  · unfold validate_refresh_token
    rw [hdel]
  · unfold validate_refresh_token
    rw [kvGet_none_applyOps _ ops _ hdel hops]
  · intro v v' h h'
    exact value_unique_wf kv _ v v' hwf h h'

/-- Witness for C5 at a concrete store, token and operation sequence. -/
theorem revoke_then_validate_none_witness :
    KVwf kvSample
    ∧ validate_refresh_token (revoke_refresh_token kvSample "r1").1 "r1" = none
    ∧ validate_refresh_token
        (applyOps (revoke_refresh_token kvSample "r1").1
          [KvOp.setex (REFRESH_TOKEN_PRE ++ "r3") 60 "1",
           KvOp.del (RESET_TOKEN_PRE ++ "tkn")]) "r1" = none := by
  have h := revoke_then_validate_none kvSample "r1"
    [KvOp.setex (REFRESH_TOKEN_PRE ++ "r3") 60 "1", KvOp.del (RESET_TOKEN_PRE ++ "tkn")]
    (by decide) (by decide)
  exact ⟨by decide, h.1, h.2.1⟩

/-- C10: `revoke_all_user_tokens` only deletes keys carrying the refresh-token
prefix: every password-reset record and every email-verification record is
left unchanged, so reset and verification tokens still validate exactly as
before. -/
theorem revoke_all_preserves_other_token_kinds (kv : KV) (uid : Nat) (tok : String) :
    kvGet (revoke_all_user_tokens kv uid).1 (RESET_TOKEN_PRE ++ tok)
        = kvGet kv (RESET_TOKEN_PRE ++ tok)
    ∧ kvGet (revoke_all_user_tokens kv uid).1 (VERIFICATION_TOKEN_PRE ++ tok)
        = kvGet kv (VERIFICATION_TOKEN_PRE ++ tok)
    ∧ validate_password_reset_token (revoke_all_user_tokens kv uid).1 tok
        = validate_password_reset_token kv tok
    ∧ (validate_email_verification_token (revoke_all_user_tokens kv uid).1 tok).1
        = (validate_email_verification_token kv tok).1 := by
  have hres : kvGet (revoke_all_user_tokens kv uid).1 (RESET_TOKEN_PRE ++ tok)
      = kvGet kv (RESET_TOKEN_PRE ++ tok) := by
    unfold revoke_all_user_tokens
    apply fold_revokeStep_get
    intro hmem
    have hm := mem_kvScanMatching kv _ _ hmem
    rw [refresh_not_match_reset tok] at hm
    exact Bool.false_ne_true hm
  have hver : kvGet (revoke_all_user_tokens kv uid).1 (VERIFICATION_TOKEN_PRE ++ tok)
      = kvGet kv (VERIFICATION_TOKEN_PRE ++ tok) := by
    unfold revoke_all_user_tokens
    apply fold_revokeStep_get
    intro hmem
    have hm := mem_kvScanMatching kv _ _ hmem
    rw [refresh_not_match_verification tok] at hm
    exact Bool.false_ne_true hm
  refine ⟨hres, hver, ?_, ?_⟩
  · unfold validate_password_reset_token
    rw [hres]
  · unfold validate_email_verification_token
    rw [hver]
    cases kvGet kv (VERIFICATION_TOKEN_PRE ++ tok) with
    | none => rfl
    | some v =>
      by_cases he : (v == "") = true
      · simp [he]
      · simp [he]

/-- C6: `revoke_all_user_tokens` for subject `uid` returns the number of
outstanding refresh-token records whose value is `str(uid)`, leaves no refresh
token validating to `uid`, and leaves every other record — in particular every
other subject's refresh-token records — untouched.  `hcanon` states that the
refresh-token values in the store are canonical decimals written by
`str(user_id)`, as `create_refresh_token` writes them. -/
theorem revoke_all_spec (kv : KV) (uid : Nat) (hwf : KVwf kv)
    (hcanon : ∀ p ∈ kv, matchesKeyPat REFRESH_TOKEN_PRE p.1 = true →
        ∃ u : Nat, p.2 = pyStr u ∧ pyInt p.2 = some u) :
    (revoke_all_user_tokens kv uid).2
        = (kv.filter (fun p => matchesKeyPat REFRESH_TOKEN_PRE p.1
            && p.2 == pyStr uid)).length
    ∧ (∀ tok, validate_refresh_token (revoke_all_user_tokens kv uid).1 tok ≠ some uid)
    ∧ (∀ p ∈ kv, ¬(matchesKeyPat REFRESH_TOKEN_PRE p.1 = true ∧ p.2 = pyStr uid)
        → p ∈ (revoke_all_user_tokens kv uid).1)
    ∧ (∀ p ∈ (revoke_all_user_tokens kv uid).1, p ∈ kv) := by
  rw [revoke_all_user_tokens_eq kv uid hwf]
  refine ⟨rfl, ?_, ?_, ?_⟩
  · intro tok hval
    unfold validate_refresh_token at hval
    cases hg : kvGet (kv.filter (fun p => !(matchesKeyPat REFRESH_TOKEN_PRE p.1
        && p.2 == pyStr uid))) (REFRESH_TOKEN_PRE ++ tok) with
    | none =>
      rw [hg] at hval
      cases hval
    | some v =>
      rw [hg] at hval
      have hval' : (if (v == "") = true then none else pyInt v) = some uid := hval
      have hv : pyInt v = some uid := by
        by_cases he : (v == "") = true
        · rw [if_pos he] at hval'
          cases hval'
        · rw [if_neg he] at hval'
          exact hval'
      have hmem := mem_of_kvGet _ _ _ hg
      have hmemkv : (REFRESH_TOKEN_PRE ++ tok, v) ∈ kv := List.mem_of_mem_filter hmem
      have hfil := List.of_mem_filter hmem
      have hmatch : matchesKeyPat REFRESH_TOKEN_PRE (REFRESH_TOKEN_PRE ++ tok) = true :=
        matchesKeyPat_append _ _
      obtain ⟨u, hps, hpi⟩ := hcanon _ hmemkv hmatch
      have : u = uid := by
        rw [hpi] at hv
        exact Option.some_inj.mp hv
      have hveq : v = pyStr uid := this ▸ hps
      rw [hmatch, hveq] at hfil
      simp at hfil
  · intro p hp hnot
    refine List.mem_filter.mpr ⟨hp, ?_⟩
    by_cases hm : matchesKeyPat REFRESH_TOKEN_PRE p.1 = true
    · have hne : ¬(p.2 = pyStr uid) := fun hv => hnot ⟨hm, hv⟩
      simp [hm, hne]
    · have hm' : matchesKeyPat REFRESH_TOKEN_PRE p.1 = false := by simpa using hm
      simp [hm']
  · intro p hp
    exact List.mem_of_mem_filter hp

/-- Witness for C6 at a concrete store: subject 1 has one outstanding refresh
token (`r1`); the count is 1, `r1` no longer validates, and subject 2's
record survives. -/
theorem revoke_all_spec_witness :
    KVwf kvSample
    ∧ (revoke_all_user_tokens kvSample 1).2 = 1
    ∧ validate_refresh_token (revoke_all_user_tokens kvSample 1).1 "r1" ≠ some 1
    ∧ (REFRESH_TOKEN_PRE ++ "r2", "2") ∈ (revoke_all_user_tokens kvSample 1).1 := by
  have hcanon : ∀ p ∈ kvSample, matchesKeyPat REFRESH_TOKEN_PRE p.1 = true →
      ∃ u : Nat, p.2 = pyStr u ∧ pyInt p.2 = some u := by
    intro p hp hm
    have hp' : p = (RESET_TOKEN_PRE ++ "tkn", "1")
        ∨ p = (REFRESH_TOKEN_PRE ++ "r1", "1")
        ∨ p = (REFRESH_TOKEN_PRE ++ "r2", "2") := by
      simpa [kvSample] using hp
    rcases hp' with rfl | rfl | rfl
    · exact ⟨1, by decide, by decide⟩
    · exact ⟨1, by decide, by decide⟩
    · exact ⟨2, by decide, by decide⟩
  have h := revoke_all_spec kvSample 1 (by decide) hcanon
  refine ⟨by decide, ?_, h.2.1 "r1", ?_⟩
  · rw [h.1]
    decide
  · exact h.2.2.1 (REFRESH_TOKEN_PRE ++ "r2", "2") (by decide) (by decide)

/-- C3: round-trip.  For a user `u` in the table (with no other row sharing
its id's decimal representation), issuing an access token and immediately
validating it succeeds and yields `u` itself — so subject id, username and
role set all equal the input user's — and the embedded claims carry exactly
`u`'s subject id, username and role names. -/
theorem access_token_round_trip (db : DB) (u : User) (secret : String) (now : Int)
    (hu : u ∈ db) (huniq : ∀ v ∈ db, pyStr v.id = pyStr u.id → v = u) :
    (∃ claims : JwtClaims,
        (issue_access_token u now secret).1 = AccessToken.signed claims secret
        ∧ claims.sub = some (pyStr u.id)
        ∧ claims.username = some u.username
        ∧ claims.roles = u.roles.map (fun r => r.name))
    ∧ get_current_user db secret now (issue_access_token u now secret).1 = .ok u := by
  constructor
  · exact ⟨_, rfl, rfl, rfl, rfl⟩
  · have hfind : db.find? (fun v => pyStr v.id == pyStr u.id) = some u := by
      apply find?_eq_of_mem_unique _ db u hu (by simp)
      intro b hb hpb
      exact huniq b hb (by simpa using hpb)
    show get_current_user db secret now
        (AccessToken.signed
          { sub := some (pyStr u.id), username := some u.username,
            roles := u.roles.map (fun r => r.name), exp := some (now + 1440 * 60) }
          secret) = .ok u
    unfold get_current_user jwtDecode
    have hnlt : ¬(now + 1440 * 60 < now) := by omega
    simp [hnlt, hfind]

/-- Witness for C3 with a concrete user table, secret and clock. -/
theorem access_token_round_trip_witness :
    userAlice ∈ dbSample
    ∧ get_current_user dbSample "secret-key" 1000
        (issue_access_token userAlice 1000 "secret-key").1 = .ok userAlice := by
  have h := access_token_round_trip dbSample userAlice "secret-key" 1000
    (by decide) (by decide)
  exact ⟨by decide, h.2⟩

/-- C4: access-token validation fails closed with the uniform 401
`credentials_exception` when the `exp` claim lies in the past (even though the
signature is correct), when the signature was made with a different key, and
when the token is malformed. -/
theorem access_token_fails_closed (db : DB) (claims : JwtClaims) (key secret : String)
    (now e : Int) (raw : String) :
    (claims.exp = some e → e < now →
        get_current_user db secret now (AccessToken.signed claims secret)
          = .error credentials_exception)
    ∧ (key ≠ secret →
        get_current_user db secret now (AccessToken.signed claims key)
          = .error credentials_exception)
    ∧ get_current_user db secret now (AccessToken.malformed raw)
        = .error credentials_exception := by
  refine ⟨?_, ?_, ?_⟩
  · intro hexp hlt
    unfold get_current_user jwtDecode
    simp [hexp, hlt]
  · intro hks
    have hks' : (key == secret) = false := by simpa using hks
    unfold get_current_user jwtDecode
    simp [hks']
  · rfl

/-- Witness for C4: an expired but correctly signed token, a token signed with
the wrong key, and a malformed token all yield the 401. -/
theorem access_token_fails_closed_witness :
    ((⟨some "1", some "alice", ["student"], some 0⟩ : JwtClaims).exp = some 0
      ∧ (0 : Int) < 5
      ∧ get_current_user dbSample "s" 5
          (AccessToken.signed ⟨some "1", some "alice", ["student"], some 0⟩ "s")
          = .error credentials_exception)
    ∧ ("k" ≠ "s"
      ∧ get_current_user dbSample "s" 5
          (AccessToken.signed ⟨some "1", some "alice", ["student"], some 0⟩ "k")
          = .error credentials_exception)
    ∧ get_current_user dbSample "s" 5 (AccessToken.malformed "garbage")
        = .error credentials_exception := by
  have h := access_token_fails_closed dbSample
    ⟨some "1", some "alice", ["student"], some 0⟩ "k" "s" 5 0 "garbage"
  exact ⟨⟨rfl, by decide, h.1 rfl (by decide)⟩, ⟨by decide, h.2.1 (by decide)⟩, h.2.2⟩

/-- C7: uniform authentication failure.  Every failing `(identifier, password)`
input — user absent, password mismatch, or inactive account — produces the one
identical failure value (`None` from the service, the fixed 401
`"Incorrect username or password"` from the login route), revealing nothing
about the cause; and when the user exists, the password verifies and the
account is active, the matching user is returned. -/
theorem authenticate_uniform_failure (db : DB) :
    (∀ ident pw, authFailureCause db ident pw →
        authenticate_user db ident pw = .ok none)
    ∧ (∀ i1 p1 i2 p2, authFailureCause db i1 p1 → authFailureCause db i2 p2 →
        authenticate_user db i1 p1 = authenticate_user db i2 p2)
    ∧ (∀ ident pw (kv : KV) (now : Int) (secret fresh : String),
        authFailureCause db ident pw →
        login_for_access_token db kv ident pw now secret fresh
          = .error (.http 401 "Incorrect username or password"))
    ∧ (∀ ident pw u, lookup_login_user db ident = some u →
        verify_password pw u.hashed_password = .ok true → u.is_active = true →
        authenticate_user db ident pw = .ok (some u)) := by
  have huni : ∀ ident pw, authFailureCause db ident pw →
      authenticate_user db ident pw = .ok none := by
    intro ident pw hc
    unfold authenticate_user
    rcases hc with h | ⟨u, hl, hv⟩ | ⟨u, hl, hv, hact⟩
    · rw [h]
    · simp [hl, hv]
    · simp [hl, hv, hact]
  refine ⟨huni, ?_, ?_, ?_⟩
  · intro i1 p1 i2 p2 h1 h2
    rw [huni i1 p1 h1, huni i2 p2 h2]
  · intro ident pw kv now secret fresh hc
    unfold login_for_access_token
    rw [huni ident pw hc]
  · intro ident pw u hl hv hact
    unfold authenticate_user
    simp [hl, hv, hact]

/-- Witness for C7: absent user, wrong password and inactive account all give
the identical failure; a correct active login succeeds. -/
theorem authenticate_uniform_failure_witness :
    authenticate_user dbSample "carol" "apw" = .ok none
    ∧ authenticate_user dbSample "alice" "wrong" = .ok none
    ∧ authenticate_user dbSample "bob" "bpw" = .ok none
    ∧ authenticate_user dbSample "carol" "apw" = authenticate_user dbSample "bob" "bpw"
    ∧ login_for_access_token dbSample kvSample "alice" "wrong" 0 "s" "fresh"
        = .error (.http 401 "Incorrect username or password")
    ∧ authenticate_user dbSample "alice" "apw" = .ok (some userAlice) := by
  have h := authenticate_uniform_failure dbSample
  have habsent : authFailureCause dbSample "carol" "apw" := Or.inl (by decide)
  have hwrong : authFailureCause dbSample "alice" "wrong" :=
    Or.inr (Or.inl ⟨userAlice, by decide, by decide⟩)
  have hinactive : authFailureCause dbSample "bob" "bpw" :=
    Or.inr (Or.inr ⟨userBob, by decide, by decide, by decide⟩)
  exact ⟨h.1 _ _ habsent, h.1 _ _ hwrong, h.1 _ _ hinactive,
    h.2.1 _ _ _ _ habsent hinactive,
    h.2.2.1 _ _ kvSample 0 "s" "fresh" hwrong,
    h.2.2.2 "alice" "apw" userAlice (by decide) (by decide) (by decide)⟩

/-- C8 counterexample: on a malformed hash string, `verify_password` does not
return `false` — it raises passlib's `UnknownHashError`. -/
theorem verify_malformed_raises :
    verify_password "password" (HashStr.malformed "not-a-hash") ≠ .ok false
    ∧ verify_password "password" (HashStr.malformed "not-a-hash")
        = .error (.pyError "UnknownHashError") := by
  exact ⟨by decide, rfl⟩

/-- C8 (amended): `verify_password` is total and boolean on every plaintext and
every well-formed bcrypt hash; on a malformed hash string it does not return a
boolean but raises `UnknownHashError`, which propagates to the caller. -/
theorem verify_total_on_wellformed_hashes :
    (∀ plain h : String, verify_password plain (HashStr.bcrypt h) = .ok (plain == h))
    ∧ (∀ plain raw : String, verify_password plain (HashStr.malformed raw)
        = .error (.pyError "UnknownHashError")) :=
  ⟨fun _ _ => rfl, fun _ _ => rfl⟩

/-- C9: the role gate has any-of semantics.  `has_role`'s checker admits the
user iff the intersection of the user's role-name set with the required set is
non-empty, returns the fixed 403 otherwise, and the decision is invariant
under reordering of both the required list and the user's role list. -/
theorem has_role_any_of (required_roles : List String) (u : User) :
    (has_role_checker required_roles u = .ok u
        ↔ ∃ r, r ∈ required_roles ∧ r ∈ u.roles.map (fun x => x.name))
    ∧ ((¬∃ r, r ∈ required_roles ∧ r ∈ u.roles.map (fun x => x.name)) →
        has_role_checker required_roles u = .error (.http 403 "Insufficient permissions"))
    ∧ (∀ (req' : List String) (roles' : List Role),
        required_roles.Perm req' → u.roles.Perm roles' →
        role_gate_allows required_roles u.roles = role_gate_allows req' roles') := by
  have hallow : ∀ (req : List String) (rs : List Role),
      role_gate_allows req rs = true ↔ ∃ r, r ∈ req ∧ r ∈ rs.map (fun x => x.name) := by
    intro req rs
    unfold role_gate_allows
    rw [List.any_eq_true]
    constructor
    · rintro ⟨r, hr, hc⟩
      exact ⟨r, hr, by simpa [List.contains] using hc⟩
    · rintro ⟨r, hr, hm⟩
      exact ⟨r, hr, by simpa [List.contains] using hm⟩
  refine ⟨?_, ?_, ?_⟩
  · constructor
    · intro hok
      by_cases hg : role_gate_allows required_roles u.roles = true
      · exact (hallow _ _).mp hg
      · unfold has_role_checker at hok
        rw [if_neg hg] at hok
        cases hok
    · intro hex
      unfold has_role_checker
      rw [if_pos ((hallow _ _).mpr hex)]
  · intro hnex
    unfold has_role_checker
    rw [if_neg (fun hg => hnex ((hallow _ _).mp hg))]
  · intro req' roles' hp hr
    have hiff : (role_gate_allows required_roles u.roles = true)
        ↔ (role_gate_allows req' roles' = true) := by
      rw [hallow, hallow]
      constructor
      · rintro ⟨r, hr1, hr2⟩
        refine ⟨r, hp.mem_iff.mp hr1, ?_⟩
        rcases List.mem_map.mp hr2 with ⟨ro, hro, rfl⟩
        exact List.mem_map.mpr ⟨ro, hr.mem_iff.mp hro, rfl⟩
      · rintro ⟨r, hr1, hr2⟩
        refine ⟨r, hp.mem_iff.mpr hr1, ?_⟩
        rcases List.mem_map.mp hr2 with ⟨ro, hro, rfl⟩
        exact List.mem_map.mpr ⟨ro, hr.mem_iff.mpr hro, rfl⟩
    cases hb1 : role_gate_allows required_roles u.roles
      <;> cases hb2 : role_gate_allows req' roles' <;> simp_all

/-- Witness for C9: the spec's own examples — `{instructor}` against
`{admin, instructor}` is allowed, `{student}` against `{admin, instructor}` is
forbidden — plus order-invariance at a concrete permutation. -/
theorem has_role_any_of_witness :
    has_role_checker ["admin", "instructor"] userBob = .ok userBob
    ∧ has_role_checker ["admin", "instructor"] userAlice
        = .error (.http 403 "Insufficient permissions")
    ∧ role_gate_allows ["admin", "instructor"] userBob.roles
        = role_gate_allows ["instructor", "admin"] userBob.roles := by
  have hb := has_role_any_of ["admin", "instructor"] userBob
  have ha := has_role_any_of ["admin", "instructor"] userAlice
  refine ⟨?_, ?_, ?_⟩
  · exact hb.1.mpr ⟨"instructor", by decide, by decide⟩
  · exact ha.2.1 (by decide)
  · exact hb.2.2 ["instructor", "admin"] userBob.roles (by decide) (by decide)

/-- C1 (code-bug evidence): reset-token consumption is not exactly-once.
`validate_password_reset_token` never deletes the record (unlike the
verification-token path), and the route crashes in `update_user` (a plain dict
is passed where a pydantic model is expected) before any state change, so a
second call with the same token behaves exactly like the first instead of
returning the `InvalidOrExpired` (400 "Invalid or expired token") failure:
the token still validates and the repeated call does not return 400. -/
theorem reset_token_not_single_use :
    validate_password_reset_token kvSample "tkn" = some 1
    ∧ reset_password dbSample kvSample "tkn" "newpw1"
        = .error (.pyError "AttributeError: dict object has no attribute dict")
    ∧ reset_password dbSample kvSample "tkn" "newpw2"
        = .error (.pyError "AttributeError: dict object has no attribute dict")
    ∧ reset_password dbSample kvSample "tkn" "newpw2"
        ≠ .error (.http 400 "Invalid or expired token") := by
  exact ⟨by decide, by decide, by decide, by decide⟩

/-- C2 (code-bug evidence): a consume of a valid reset token never succeeds —
`update_user` is handed a plain dict, whose `.dict` attribute access raises
`AttributeError` — so the password hash is never updated and
`revoke_all_user_tokens` is never reached: the outstanding refresh token
still validates with the pre-call store. -/
theorem reset_password_crashes_before_revocation :
    (∀ (db' : DB) (kv' : KV),
        reset_password dbSample kvSample "tkn" "newpw" ≠ .ok (db', kv'))
    ∧ reset_password dbSample kvSample "tkn" "newpw"
        = .error (.pyError "AttributeError: dict object has no attribute dict")
    ∧ validate_refresh_token kvSample "r1" = some 1
    ∧ get_user dbSample 1 = some userAlice
    ∧ userAlice.hashed_password = get_password_hash "apw" := by
  have heval : reset_password dbSample kvSample "tkn" "newpw"
      = .error (.pyError "AttributeError: dict object has no attribute dict") := by decide
  refine ⟨?_, heval, by decide, by decide, by decide⟩
  intro db' kv' h
  rw [heval] at h
  cases h

end LMS
